import Mathlib

/-!
Shallow embedding of the FRPLauncher core and proofs about it.

The definitions below are translated from the repository sources:
  - frpc_controller.py  (proxy registry, config reconciliation, process bring-up)
  - port_scanner.py     (port snapshot scanning and diffing)
  - config_manager.py   (scan interval clamping)

Machine-level details that the verified logic never reads are omitted and
documented at each definition: the subprocess handle stored on a proxy, and
wall-clock float timestamps (created_at, create_time).
-/

namespace FRPLauncher

/-- Model of the Python method str.startswith for a single literal argument.
String.startsWith of core Lean is byte-index based and does not reduce in the
kernel, so prefix testing is phrased over the underlying character lists. -/
def strStartsWith (s p : String) : Bool :=
  p.data.isPrefixOf s.data

/-! ## frpc_controller.py: data model -/

/-- ProxyStatus enum from frpc_controller.py (STOPPED, STARTING, RUNNING,
STOPPING, ERROR). -/
inductive ProxyStatus where
  | stopped
  | starting
  | running
  | stopping
  | error
deriving DecidableEq

/-- ProxyConfig dataclass from frpc_controller.py. The subprocess handle
field (process) is an OS resource and the created_at float timestamp is
never read by the logic under verification; both are omitted. -/
structure ProxyConfig where
  name : String
  local_port : Nat
  remote_port : Nat
  protocol : String
  local_ip : String
  status : ProxyStatus
deriving DecidableEq

/-- Proxy name derivation from add_proxy:
f-string protocol_localport_to_remoteport. -/
def mkProxyName (protocol : String) (lp rp : Nat) : String :=
  protocol ++ "_" ++ toString lp ++ "_to_" ++ toString rp

/-- The in-memory registry self.proxies. In Python it is a dict keyed by
proxy.name in insertion order; it is modelled as the list of its values,
looked up by the name field. -/
abbrev Registry := List ProxyConfig

/-- Dictionary lookup self.proxies.get(name) / self.proxies[name]. -/
def findProxy (reg : Registry) (nm : String) : Option ProxyConfig :=
  reg.find? (fun p => p.name == nm)

/-- Mutation proxy.status = st for the rule named nm. -/
def setProxyStatus (reg : Registry) (nm : String) (st : ProxyStatus) : Registry :=
  reg.map (fun p => if p.name == nm then { p with status := st } else p)

/-! ## frpc_controller.py: the on-disk TOML document -/

/-- The dict written for one proxy by _update_config:
keys type, local_ip, local_port, remote_port. -/
structure ProxySection where
  type : String
  local_ip : String
  local_port : Nat
  remote_port : Nat
deriving DecidableEq

/-- A top-level value of the TOML document: either a generated proxy section
or content this component does not own (for example the common section),
which passes through opaquely. -/
inductive SectionVal where
  | generated (p : ProxySection)
  | passthrough (raw : String)
deriving DecidableEq

/-- The TOML document as tomlkit presents it: top-level keys in order. -/
abbrev TomlDoc := List (String × SectionVal)

/-- The generated-section test of _update_config:
key.startswith(("tcp_", "udp_", "http_", "https_")). -/
def isGeneratedKey (k : String) : Bool :=
  strStartsWith k "tcp_" || strStartsWith k "udp_" ||
    strStartsWith k "http_" || strStartsWith k "https_"

/-- The removal pass of _update_config: delete every top-level key matching
the generated naming scheme, keeping everything else (such as common). -/
def removeGenerated (d : TomlDoc) : TomlDoc :=
  d.filter (fun kv => !(isGeneratedKey kv.1))

/-- Assignment config_data[k] = v in tomlkit: replace the value in place if
the key exists, otherwise append the new key at the end. -/
def setKey (d : TomlDoc) (k : String) (v : SectionVal) : TomlDoc :=
  if d.any (fun kv => kv.1 == k) then
    d.map (fun kv => if kv.1 == k then (k, v) else kv)
  else
    d ++ [(k, v)]

/-- The section dict built for one proxy inside _update_config. -/
def proxySectionOf (p : ProxyConfig) : ProxySection :=
  { type := p.protocol, local_ip := p.local_ip,
    local_port := p.local_port, remote_port := p.remote_port }

/-- One iteration of the re-emission loop of _update_config:
config_data[proxy.name] = proxy_config. -/
def applyProxySection (acc : TomlDoc) (p : ProxyConfig) : TomlDoc :=
  setKey acc p.name (SectionVal.generated (proxySectionOf p))

/-- Document transformation performed by _update_config on the loaded
document: remove stale generated sections, then emit one generated section
per registry entry, in registry order. Note the loop ranges over every
registry entry regardless of its status field. -/
def updateConfigDoc (d : TomlDoc) (ps : List ProxyConfig) : TomlDoc :=
  ps.foldl applyProxySection (removeGenerated d)

/-- Top-level key lookup config_data[k] on the document. -/
def lookupDoc (d : TomlDoc) (k : String) : Option (String × SectionVal) :=
  d.find? (fun kv => kv.1 == k)

/-- Membership test k in config_data. -/
def docHasKey (d : TomlDoc) (k : String) : Bool :=
  d.any (fun kv => kv.1 == k)

/-! ## frpc_controller.py: registry mutations (add_proxy / remove_proxy)

Reconciliation touches the file system, so the success of _update_config is
passed in as the boolean writeOk; the document transformation itself is
updateConfigDoc above. -/

/-- Embedding of FrpcController.add_proxy. Checks frpc availability, applies
the remote-port default, derives the name, rejects duplicates, inserts the
new rule with status Stopped, and on reconciliation failure deletes the
just-inserted key again (del self.proxies[proxy_name]). -/
def addProxy (reg : Registry) (frpcAvailable : Bool) (lp : Nat) (rp? : Option Nat)
    (protocol : String) (writeOk : Bool) : (Bool × String) × Registry :=
  if !frpcAvailable then
    ((false, "frpc 不可用，未找到 frpc 可执行文件。请将 frpc 放入程序目录或添加到 PATH"), reg)
  else
    let rp := rp?.getD lp
    let nm := mkProxyName protocol lp rp
    if reg.any (fun p => p.name == nm) then
      ((false, "代理 " ++ nm ++ " 已存在"), reg)
    else
      let proxy : ProxyConfig :=
        { name := nm, local_port := lp, remote_port := rp, protocol := protocol,
          local_ip := "127.0.0.1", status := ProxyStatus.stopped }
      let reg' := reg ++ [proxy]
      if writeOk then ((true, "已添加代理: " ++ nm), reg')
      else ((false, "更新配置文件失败"), reg'.filter (fun p => !(p.name == nm)))

/-- Embedding of FrpcController.remove_proxy as it affects the registry.
Unknown names return false. A running rule is first put through _stop_proxy,
whose registry effect is setting its status to Stopped (its own disk write
and process signalling do not change the registry). The rule is then deleted
and the result of the final _update_config call is returned as is; the
deletion is not undone when that call fails. -/
def removeProxy (reg : Registry) (nm : String) (writeOk : Bool) : Bool × Registry :=
  match reg.find? (fun p => p.name == nm) with
  | none => (false, reg)
  | some p =>
    let reg₁ := if p.status == ProxyStatus.running then setProxyStatus reg nm ProxyStatus.stopped else reg
    (writeOk, reg₁.filter (fun q => !(q.name == nm)))

/-! ## frpc_controller.py: _stop_proxy and start_proxy -/

/-- Embedding of the state effect of FrpcController._stop_proxy: the rule
status is set to Stopped and _update_config rewrites the document from the
full registry (the process reload that follows does not change registry or
document). -/
def stopProxyEffect (reg : Registry) (doc : TomlDoc) (nm : String) : Registry × TomlDoc :=
  let reg' := setProxyStatus reg nm ProxyStatus.stopped
  (reg', updateConfigDoc doc reg')

/-- Environment consumed by start_proxy: frpc availability as recorded by
the constructor, the outcome of test_frpc_version, whether the shared frpc
process is already alive (frpc_process not None and poll() is None), and the
outcome of _start_frpc when it has to be invoked. -/
structure StartEnv where
  frpcAvailable : Bool
  versionOk : Bool
  versionMsg : String
  processAlive : Bool
  startOk : Bool
  startMsg : String
deriving DecidableEq

/-- Embedding of FrpcController.start_proxy. The except-branch that sets
status Error is reachable only if a statement inside the try block raises;
every branch modelled here returns normally, matching the source paths. -/
def startProxy (reg : Registry) (nm : String) (env : StartEnv) :
    (Bool × String) × Registry :=
  match reg.find? (fun p => p.name == nm) with
  | none => ((false, "代理 " ++ nm ++ " 不存在"), reg)
  | some proxy =>
    if proxy.status == ProxyStatus.running then
      ((true, "代理已在运行中"), reg)
    else if !env.frpcAvailable then
      ((false, "frpc 不可用，未找到 frpc 可执行文件"), reg)
    else if !env.versionOk then
      ((false, "frpc 可执行文件异常: " ++ env.versionMsg), reg)
    else if !env.processAlive && !env.startOk then
      ((false, "启动 frpc 失败: " ++ env.startMsg), reg)
    else
      ((true, "已启动代理: " ++ nm), setProxyStatus reg nm ProxyStatus.running)

/-! ## frpc_controller.py: _start_frpc pre-launch checks -/

/-- State of the config file as _start_frpc observes it: absent, present but
failing to parse in tomlkit.load, or successfully loaded. -/
inductive ConfigFileState where
  | absent
  | unreadable (msg : String)
  | loaded (doc : TomlDoc)
deriving DecidableEq

/-- Environment consumed by the pre-launch phase of _start_frpc: the located
binary path, the config file state, and the behaviour of the frpc verify
subcommand on this document (exit code and stderr text). -/
structure FrpcEnv where
  frpcPath : Option String
  configFile : ConfigFileState
  verifyExit : Int
  verifyStderr : String
deriving DecidableEq

/-- Errors returned by the pre-launch phase of _start_frpc, one per early
return of the source. -/
inductive StartFrpcError where
  | noBinary
  | noConfigFile
  | readFailed (msg : String)
  | missingCommon
  | verifyFailed (diag : String)
deriving DecidableEq

/-- Test for the connection section: the source checks
common not in config_data. -/
def hasCommon (d : TomlDoc) : Bool :=
  d.any (fun kv => kv.1 == "common")

/-- Embedding of the checks _start_frpc performs before launching the
process, in source order: binary present, config file exists, config file
parses, common section present, then the verify subcommand. The boolean in
the result records whether the verify subcommand was invoked. -/
def startFrpcChecks (env : FrpcEnv) : Bool × Except StartFrpcError Unit :=
  match env.frpcPath with
  | none => (false, Except.error StartFrpcError.noBinary)
  | some _ =>
    match env.configFile with
    | ConfigFileState.absent => (false, Except.error StartFrpcError.noConfigFile)
    | ConfigFileState.unreadable msg => (false, Except.error (StartFrpcError.readFailed msg))
    | ConfigFileState.loaded doc =>
      if !(hasCommon doc) then
        (false, Except.error StartFrpcError.missingCommon)
      else if env.verifyExit != 0 then
        (true, Except.error (StartFrpcError.verifyFailed env.verifyStderr))
      else
        (true, Except.ok ())

/-! ## frpc_controller.py: the file write of _update_config

The write in the source is: open(self.config_path, "w") followed by
tomlkit.dump(config_data, f). At the file-system level, opening an existing
file with mode w truncates it in place, and dump then appends the serialized
chunks. No temporary file and no rename are involved. -/

/-- One file-system step of the write. -/
inductive WriteStep where
  | truncate
  | writeChunk (s : String)
deriving DecidableEq

/-- Effect of one step on the on-disk content of the target path. -/
def applyWriteStep (content : String) (step : WriteStep) : String :=
  match step with
  | WriteStep.truncate => ""
  | WriteStep.writeChunk s => content ++ s

/-- Content of the target path after running a list of steps. -/
def runWrite (content : String) (steps : List WriteStep) : String :=
  steps.foldl applyWriteStep content

/-- The step sequence performed by the write in _update_config: truncate the
target in place, then append the serialized chunks. -/
def directWriteTrace (chunks : List String) : List WriteStep :=
  WriteStep.truncate :: chunks.map WriteStep.writeChunk

/-- The full serialized document: concatenation of the dumped chunks. -/
def serializedDoc (chunks : List String) : String :=
  chunks.foldl (fun a b => a ++ b) ""

/-! ## config_manager.py: interval clamping -/

/-- Embedding of ConfigManager.set_scan_interval: the value stored into
app_config.scan_interval. -/
def set_scan_interval (interval : Int) : Int :=
  if interval < 5 then 5
  else if interval > 300 then 300
  else interval

/-- Modelled from the spec words for comparison: the clamp the spec claims,
scan interval clamped to the range [2,300]. -/
def specScanIntervalClamp (interval : Int) : Int :=
  if interval < 2 then 2
  else if interval > 300 then 300
  else interval

/-! ## port_scanner.py: data model -/

/-- PortInfo dataclass from port_scanner.py. The create_time float wall
clock is never read by the diffing or query logic and is omitted. -/
structure PortInfo where
  port : Nat
  protocol : String
  pid : Option Nat
  process_name : String
  local_addr : String
  status : String
deriving DecidableEq

/-- The identity key built in scan_ports: f-string port_protocol_pid.
It is modelled as the triple itself, which the string determines. -/
def PortInfo.key (p : PortInfo) : Nat × String × Option Nat :=
  (p.port, p.protocol, p.pid)

/-- A snapshot: the values of the dict new_ports in insertion order. -/
abbrev Snapshot := List PortInfo

/-- Membership test key in ports for a snapshot dict. -/
def hasKeyIn (s : Snapshot) (k : Nat × String × Option Nat) : Bool :=
  s.any (fun p => p.key == k)

/-- Dictionary access ports[key] on a snapshot. -/
def lookupKey (s : Snapshot) (k : Nat × String × Option Nat) : Option PortInfo :=
  s.find? (fun p => p.key == k)

/-- The three diff sequences computed at the end of scan_ports. -/
structure Diff where
  added : List PortInfo
  removed : List PortInfo
  changed : List PortInfo
deriving DecidableEq

/-- The diff loops of scan_ports: added ranges over the new snapshot keeping
keys absent from the old, removed ranges over the old snapshot keeping keys
absent from the new, changed ranges over the new snapshot keeping keys
present in the old whose status field differs (appending the new
observation). -/
def computeDiff (old new : Snapshot) : Diff :=
  { added := new.filter (fun p => !(hasKeyIn old p.key))
  , removed := old.filter (fun p => !(hasKeyIn new p.key))
  , changed := new.filter (fun p =>
      match lookupKey old p.key with
      | some q => q.status != p.status
      | none => false) }

/-- The emission guard at the end of scan_ports:
if added or removed or changed, emit the signal once, else not at all. -/
def emitDecision (d : Diff) : List Diff :=
  if d.added.isEmpty && d.removed.isEmpty && d.changed.isEmpty then []
  else [d]

/-- Diff-signal emissions of one scan cycle whose previous snapshot is old
and whose freshly built snapshot is new. -/
def scanEmit (old new : Snapshot) : List Diff :=
  emitDecision (computeDiff old new)

/-- Uniqueness of identity keys within a snapshot, which holds for every
snapshot built by scan_ports because new_ports is a dict keyed by the
identity key. -/
def keysNodup (s : Snapshot) : Prop :=
  s.Pairwise (fun p q => p.key ≠ q.key)

/-! ## port_scanner.py: snapshot construction and queries -/

/-- One raw entry of psutil.net_connections as scan_ports consumes it:
the connection status string, whether laddr is truthy, the port and address,
whether the socket type is SOCK_STREAM, the pid, and the process name the
best-effort resolution produced. -/
structure RawConn where
  status : String
  laddrPresent : Bool
  port : Nat
  ip : String
  isStream : Bool
  pid : Option Nat
  resolvedName : String
deriving DecidableEq

/-- The PortInfo record scan_ports builds for one accepted connection; its
status field is copied from conn.status. -/
def connInfo (c : RawConn) : PortInfo :=
  { port := c.port
  , protocol := if c.isStream then "tcp" else "udp"
  , pid := c.pid
  , process_name := c.resolvedName
  , local_addr := c.ip
  , status := c.status }

/-- Dictionary insertion new_ports[key] = port_info: replace in place when
the key exists, else append. -/
def snapInsert (s : Snapshot) (p : PortInfo) : Snapshot :=
  if s.any (fun q => q.key == p.key) then
    s.map (fun q => if q.key == p.key then p else q)
  else
    s ++ [p]

/-- One iteration of the connection loop of scan_ports: the record is stored
only when conn.status == LISTEN and conn.laddr is truthy. -/
def scanConnStep (acc : Snapshot) (c : RawConn) : Snapshot :=
  if c.status == "LISTEN" && c.laddrPresent then snapInsert acc (connInfo c)
  else acc

/-- The snapshot dict new_ports built by one scan over the listed
connections. -/
def buildSnapshot (conns : List RawConn) : Snapshot :=
  conns.foldl scanConnStep []

/-- Embedding of PortScanner.get_port_by_number: entries with the requested
port number whose is_listening property holds (status == LISTEN). -/
def getPortByNumber (s : Snapshot) (n : Nat) : List PortInfo :=
  s.filter (fun p => p.port == n && (p.status == "LISTEN"))

/-- Embedding of PortScanner.is_port_listening: len(...) > 0. -/
def is_port_listening (s : Snapshot) (n : Nat) : Bool :=
  decide (0 < (getPortByNumber s n).length)

/-! ## Concrete sample values used by the closed theorems -/

/-- A sample rule as add_proxy(80) creates it, at a chosen status. -/
def sampleProxy (st : ProxyStatus) : ProxyConfig :=
  { name := "tcp_80_to_80", local_port := 80, remote_port := 80,
    protocol := "tcp", local_ip := "127.0.0.1", status := st }

/-- A sample document holding only the connection section. -/
def sampleDoc : TomlDoc :=
  [("common", SectionVal.passthrough "serverAddr")]

/-- Environment of a host on which the binary search found nothing. -/
def envNoBinary : StartEnv :=
  { frpcAvailable := false, versionOk := true, versionMsg := "",
    processAlive := false, startOk := false, startMsg := "" }

/-- Shorthand for one observation with the fields the diff logic reads. -/
def obs (port : Nat) (protocol : String) (pid : Nat) (status : String) : PortInfo :=
  { port := port, protocol := protocol, pid := some pid,
    process_name := "", local_addr := "0.0.0.0", status := status }

/-- A sample raw listening connection. -/
def sampleConn : RawConn :=
  { status := "LISTEN", laddrPresent := true, port := 80, ip := "0.0.0.0",
    isStream := true, pid := some 100, resolvedName := "nginx" }

/-- Environment whose config document parses but has no common section. -/
def envNoCommon : FrpcEnv :=
  { frpcPath := some "/usr/bin/frpc"
  , configFile := ConfigFileState.loaded
      [("tcp_80_to_80", SectionVal.generated
        { type := "tcp", local_ip := "127.0.0.1", local_port := 80, remote_port := 80 })]
  , verifyExit := 0, verifyStderr := "" }

/-- Environment whose config document has a common section but whose verify
subcommand exits non-zero with diagnostic text. -/
def envVerifyFails : FrpcEnv :=
  { frpcPath := some "/usr/bin/frpc"
  , configFile := ConfigFileState.loaded sampleDoc
  , verifyExit := 1, verifyStderr := "invalid port" }

/-! ## Helper lemmas -/

theorem strStartsWith_append (p s : String) : strStartsWith (p ++ s) p = true := by
  simp [strStartsWith, String.data_append, List.isPrefixOf_iff_prefix]

theorem isGeneratedKey_mkProxyName (protocol : String) (lp rp : Nat)
    (h : protocol = "tcp" ∨ protocol = "udp") :
    isGeneratedKey (mkProxyName protocol lp rp) = true := by
  rcases h with h | h <;> subst h
  · have hsplit : mkProxyName "tcp" lp rp =
        "tcp_" ++ (toString lp ++ "_to_" ++ toString rp) := by
      simp [mkProxyName, ← String.append_assoc]
    rw [isGeneratedKey, hsplit]
    simp [strStartsWith_append]
  · have hsplit : mkProxyName "udp" lp rp =
        "udp_" ++ (toString lp ++ "_to_" ++ toString rp) := by
      simp [mkProxyName, ← String.append_assoc]
    rw [isGeneratedKey, hsplit]
    simp [strStartsWith_append]

theorem filter_not_name (reg : Registry) (nm : String)
    (h : reg.any (fun p => p.name == nm) = false) :
    reg.filter (fun p => !(p.name == nm)) = reg := by
  rw [List.any_eq_false] at h
  apply List.filter_eq_self.mpr
  intro p hp
  simpa using h p hp

/-! ## Claim C6 -/

/-- Claim C6 counterexample: the stored scan interval for input 2 is 5, not
the value 2 that a clamp to the range [2,300] would store. -/
theorem claim_C6_counterexample :
    set_scan_interval 2 = 5 ∧ specScanIntervalClamp 2 = 2 ∧
    set_scan_interval 2 ≠ specScanIntervalClamp 2 := by
  decide

/-- Claim C6 (amended): for every integer i supplied as the scan interval,
the stored scan interval is i clamped to the range [5,300]: it is 5 when
i < 5, 300 when i > 300, and i otherwise. -/
theorem claim_C6_amended :
    ∀ i : Int, set_scan_interval i = max 5 (min 300 i) := by
  intro i
  unfold set_scan_interval
  split <;> [omega; (split <;> omega)]

/-! ## Claim C3 -/

theorem foldl_writeChunks (cs : List String) :
    ∀ s : String,
      List.foldl applyWriteStep s (cs.map WriteStep.writeChunk) =
        cs.foldl (fun a b => a ++ b) s := by
  induction cs with
  | nil => intro s; rfl
  | cons c cs ih =>
    intro s
    simp only [List.map_cons, List.foldl_cons]
    exact ih (s ++ c)

/-- Claim C3 counterexample: with a valid document on disk, interrupting the
write of _update_config after its first file-system step (the in-place
truncation) leaves the empty document, not the previous one, even though the
trace has further steps left. -/
theorem claim_C3_counterexample :
    runWrite "[common]\nserverAddr = 1\n"
        (List.take 1 (directWriteTrace ["[common]\n"])) = "" ∧
    "" ≠ "[common]\nserverAddr = 1\n" ∧
    1 < (directWriteTrace ["[common]\n"]).length := by
  decide

/-- Claim C3 (amended): the reconciliation write is not
write-temp-then-rename: it truncates the target in place and then appends
the serialized chunks, so a completed write leaves exactly the new
serialization while an interruption right after the truncation leaves an
empty (half-written) document rather than the previous one. -/
theorem claim_C3_amended :
    ∀ (old : String) (chunks : List String),
      runWrite old (directWriteTrace chunks) = serializedDoc chunks ∧
      runWrite old (List.take 1 (directWriteTrace chunks)) = "" := by
  intro old chunks
  constructor
  · simp only [runWrite, directWriteTrace, List.foldl_cons]
    exact foldl_writeChunks chunks ""
  · rfl

/-! ## Claim C1 -/

/-- Claim C1 counterexample: remove_proxy does not roll back. With a
one-rule registry and a failing reconciliation, the call reports failure yet
the registry afterwards is empty instead of equal to its prior value. -/
theorem claim_C1_counterexample :
    (removeProxy [sampleProxy ProxyStatus.stopped] "tcp_80_to_80" false).1 = false ∧
    (removeProxy [sampleProxy ProxyStatus.stopped] "tcp_80_to_80" false).2 = [] ∧
    ([] : Registry) ≠ [sampleProxy ProxyStatus.stopped] := by
  decide

/-- Claim C1 (amended): when reconciliation fails, add_proxy rolls its
insert back, leaving the registry exactly as before the call; remove_proxy
instead reports failure while leaving the rule deleted from the in-memory
registry (the deletion is not rolled back). -/
theorem claim_C1_amended :
    (∀ (reg : Registry) (avail : Bool) (lp : Nat) (rp? : Option Nat) (protocol : String),
        (addProxy reg avail lp rp? protocol false).2 = reg) ∧
    (∀ (reg : Registry) (nm : String) (p : ProxyConfig),
        reg.find? (fun q => q.name == nm) = some p →
        (removeProxy reg nm false).1 = false ∧
        (removeProxy reg nm false).2.any (fun q => q.name == nm) = false) := by
  constructor
  · intro reg avail lp rp? protocol
    by_cases hdup :
        reg.any (fun p => p.name == mkProxyName protocol lp (rp?.getD lp)) = true
    · cases avail <;> simp [addProxy, hdup]
    · simp only [Bool.not_eq_true] at hdup
      have hreg :
          reg.filter (fun p => !(p.name == mkProxyName protocol lp (rp?.getD lp))) = reg :=
        filter_not_name reg _ hdup
      cases avail <;> simp [addProxy, hdup, List.filter_append, hreg]
  · intro reg nm p hfind
    refine ⟨by simp [removeProxy, hfind], ?_⟩
    simp only [removeProxy, hfind]
    rw [List.any_eq_false]
    intro q hq
    have hmem := List.mem_filter.mp hq
    simpa using hmem.2

/-- Claim C1 witness: the amended statement applied to a concrete one-rule
registry on both branches. -/
theorem claim_C1_witness :
    (addProxy [] true 80 none "tcp" false).2 = [] ∧
    (removeProxy [sampleProxy ProxyStatus.stopped] "tcp_80_to_80" false).1 = false := by
  exact ⟨claim_C1_amended.1 [] true 80 none "tcp",
    (claim_C1_amended.2 [sampleProxy ProxyStatus.stopped] "tcp_80_to_80"
      (sampleProxy ProxyStatus.stopped) (by decide)).1⟩

/-! ## Claim C2 -/

/-- Claim C2 (evaluation of the defect): stopping the only Running rule sets
its status to Stopped, but the rewritten document still contains a generated
section for the stopped rule, because _update_config emits one section per
registry entry regardless of status. This contradicts the comment in
_stop_proxy stating that the config update removes that proxy. -/
theorem claim_C2_code_eval :
    (stopProxyEffect [sampleProxy ProxyStatus.running] sampleDoc "tcp_80_to_80").1 =
      [sampleProxy ProxyStatus.stopped] ∧
    docHasKey (stopProxyEffect [sampleProxy ProxyStatus.running] sampleDoc
      "tcp_80_to_80").2 "tcp_80_to_80" = true ∧
    docHasKey (stopProxyEffect [sampleProxy ProxyStatus.running] sampleDoc
      "tcp_80_to_80").2 "common" = true := by
  decide

/-! ## Claim C7 -/

/-- Claim C7 counterexample: a registered rule can be in status Error (set
by the exception branch of start_proxy). Calling start on it with no binary
found returns the unavailable error, but the status afterwards is Error, not
Stopped. -/
theorem claim_C7_counterexample :
    startProxy [sampleProxy ProxyStatus.error] "tcp_80_to_80" envNoBinary =
      ((false, "frpc 不可用，未找到 frpc 可执行文件"), [sampleProxy ProxyStatus.error]) ∧
    (sampleProxy ProxyStatus.error).status ≠ ProxyStatus.running ∧
    (sampleProxy ProxyStatus.error).status ≠ ProxyStatus.stopped := by
  decide

/-- Claim C7 (amended): for every registered rule that is not Running,
calling start when the Locator found no binary returns the BinaryUnavailable
error and leaves the registry, hence that rule status, unchanged: a Stopped
rule stays Stopped and no status is ever set to Error on this path. -/
theorem claim_C7_amended :
    ∀ (reg : Registry) (nm : String) (env : StartEnv) (p : ProxyConfig),
      reg.find? (fun q => q.name == nm) = some p →
      (p.status == ProxyStatus.running) = false →
      env.frpcAvailable = false →
      startProxy reg nm env = ((false, "frpc 不可用，未找到 frpc 可执行文件"), reg) := by
  intro reg nm env p hfind hst hav
  unfold startProxy
  rw [hfind]
  simp [hst, hav]

/-- Claim C7 witness: the amended statement applied to a Stopped rule with
the binary missing. -/
theorem claim_C7_witness :
    startProxy [sampleProxy ProxyStatus.stopped] "tcp_80_to_80" envNoBinary =
      ((false, "frpc 不可用，未找到 frpc 可执行文件"), [sampleProxy ProxyStatus.stopped]) :=
  claim_C7_amended _ _ _ (sampleProxy ProxyStatus.stopped)
    (by decide) (by decide) (by decide)

/-! ## Snapshot and diff helper lemmas -/

theorem hasKeyIn_of_mem {s : Snapshot} {p : PortInfo} (h : p ∈ s) :
    hasKeyIn s p.key = true :=
  List.any_eq_true.mpr ⟨p, h, by simp⟩

theorem mem_and_key_of_lookupKey {s : Snapshot} {k : Nat × String × Option Nat}
    {q : PortInfo} (h : lookupKey s k = some q) : q ∈ s ∧ q.key = k := by
  refine ⟨List.mem_of_find?_eq_some h, ?_⟩
  have hpred := List.find?_some h
  simpa using hpred

theorem hasKeyIn_of_lookupKey {s : Snapshot} {k : Nat × String × Option Nat}
    {q : PortInfo} (h : lookupKey s k = some q) : hasKeyIn s k = true := by
  obtain ⟨hm, hk⟩ := mem_and_key_of_lookupKey h
  exact List.any_eq_true.mpr ⟨q, hm, by simp [hk]⟩

theorem mem_diff_added {old new : Snapshot} {p : PortInfo} :
    p ∈ (computeDiff old new).added ↔ p ∈ new ∧ hasKeyIn old p.key = false := by
  simp [computeDiff, List.mem_filter]

theorem mem_diff_removed {old new : Snapshot} {p : PortInfo} :
    p ∈ (computeDiff old new).removed ↔ p ∈ old ∧ hasKeyIn new p.key = false := by
  simp [computeDiff, List.mem_filter]

theorem mem_diff_changed {old new : Snapshot} {p : PortInfo} :
    p ∈ (computeDiff old new).changed ↔
      p ∈ new ∧ ∃ q, lookupKey old p.key = some q ∧ q.status ≠ p.status := by
  simp only [computeDiff, List.mem_filter]
  constructor
  · rintro ⟨hp, hf⟩
    refine ⟨hp, ?_⟩
    cases hlk : lookupKey old p.key with
    | none => rw [hlk] at hf; simp at hf
    | some q =>
      rw [hlk] at hf
      exact ⟨q, rfl, by simpa [bne_iff_ne] using hf⟩
  · rintro ⟨hp, q, hq, hst⟩
    refine ⟨hp, ?_⟩
    rw [hq]
    simpa [bne_iff_ne] using hst

theorem diff_self_empty (s : Snapshot) (h : keysNodup s) :
    computeDiff s s = { added := [], removed := [], changed := [] } := by
  have hsymm : Symmetric (fun p q : PortInfo => p.key ≠ q.key) :=
    fun a b hab he => hab he.symm
  simp only [computeDiff, Diff.mk.injEq]
  refine ⟨?_, ?_, ?_⟩
  · apply List.filter_eq_nil_iff.mpr
    intro p hp
    simp [hasKeyIn_of_mem hp]
  · apply List.filter_eq_nil_iff.mpr
    intro p hp
    simp [hasKeyIn_of_mem hp]
  · apply List.filter_eq_nil_iff.mpr
    intro p hp
    cases hlk : lookupKey s p.key with
    | none => simp
    | some q =>
      obtain ⟨hqmem, hqkey⟩ := mem_and_key_of_lookupKey hlk
      have hqp : q = p := by
        by_contra hne
        exact List.Pairwise.forall hsymm h hqmem hp hne hqkey
      subst hqp
      simp [hlk]

/-! ## Claim C4 -/

/-- Claim C4: the diff of scan_ports is characterized exactly: added holds
the new-snapshot observations whose key is absent from the old snapshot,
removed the old-snapshot observations whose key is absent from the new,
changed the new-snapshot observations whose key resolves in the old snapshot
to an observation with a different status; any two observations drawn from
two different sequences of one diff have different keys; and the two example
snapshot pairs produce exactly the listed diffs. -/
theorem claim_C4_diff :
    (∀ (old new : Snapshot) (p : PortInfo),
        p ∈ (computeDiff old new).added ↔ p ∈ new ∧ hasKeyIn old p.key = false) ∧
    (∀ (old new : Snapshot) (p : PortInfo),
        p ∈ (computeDiff old new).removed ↔ p ∈ old ∧ hasKeyIn new p.key = false) ∧
    (∀ (old new : Snapshot) (p : PortInfo),
        p ∈ (computeDiff old new).changed ↔
          p ∈ new ∧ ∃ q, lookupKey old p.key = some q ∧ q.status ≠ p.status) ∧
    (∀ (old new : Snapshot) (p q : PortInfo),
        p ∈ (computeDiff old new).added → q ∈ (computeDiff old new).removed →
          p.key ≠ q.key) ∧
    (∀ (old new : Snapshot) (p q : PortInfo),
        p ∈ (computeDiff old new).added → q ∈ (computeDiff old new).changed →
          p.key ≠ q.key) ∧
    (∀ (old new : Snapshot) (p q : PortInfo),
        p ∈ (computeDiff old new).removed → q ∈ (computeDiff old new).changed →
          p.key ≠ q.key) ∧
    computeDiff [obs 80 "tcp" 100 "LISTEN", obs 443 "tcp" 200 "LISTEN"]
        [obs 80 "tcp" 100 "LISTEN", obs 8080 "tcp" 300 "LISTEN"] =
      { added := [obs 8080 "tcp" 300 "LISTEN"]
      , removed := [obs 443 "tcp" 200 "LISTEN"]
      , changed := [] } ∧
    computeDiff [obs 80 "tcp" 100 "LISTEN"] [obs 80 "tcp" 100 "CLOSE_WAIT"] =
      { added := [], removed := [], changed := [obs 80 "tcp" 100 "CLOSE_WAIT"] } := by
  refine ⟨fun old new p => mem_diff_added, fun old new p => mem_diff_removed,
    fun old new p => mem_diff_changed, ?_, ?_, ?_, by decide, by decide⟩
  · intro old new p q hp hq hk
    obtain ⟨hpnew, hpold⟩ := mem_diff_added.mp hp
    obtain ⟨hqold, hqnew⟩ := mem_diff_removed.mp hq
    have htrue : hasKeyIn old p.key = true := by rw [hk]; exact hasKeyIn_of_mem hqold
    rw [htrue] at hpold
    exact absurd hpold (by simp)
  · intro old new p q hp hq hk
    obtain ⟨hpnew, hpold⟩ := mem_diff_added.mp hp
    obtain ⟨hqnew, r, hr, hrs⟩ := mem_diff_changed.mp hq
    have htrue : hasKeyIn old p.key = true := by rw [hk]; exact hasKeyIn_of_lookupKey hr
    rw [htrue] at hpold
    exact absurd hpold (by simp)
  · intro old new p q hp hq hk
    obtain ⟨hpold, hpnew⟩ := mem_diff_removed.mp hp
    obtain ⟨hqnew, r, hr, hrs⟩ := mem_diff_changed.mp hq
    have htrue : hasKeyIn new p.key = true := by rw [hk]; exact hasKeyIn_of_mem hqnew
    rw [htrue] at hpnew
    exact absurd hpnew (by simp)

/-- Claim C4 witness: the key-disjointness part applied to the first example
pair at its added and removed entries. -/
theorem claim_C4_witness :
    (obs 8080 "tcp" 300 "LISTEN").key ≠ (obs 443 "tcp" 200 "LISTEN").key :=
  claim_C4_diff.2.2.2.1
    [obs 80 "tcp" 100 "LISTEN", obs 443 "tcp" 200 "LISTEN"]
    [obs 80 "tcp" 100 "LISTEN", obs 8080 "tcp" 300 "LISTEN"]
    (obs 8080 "tcp" 300 "LISTEN") (obs 443 "tcp" 200 "LISTEN")
    (by decide) (by decide)

/-! ## Claim C9 -/

/-- Claim C9: the diff observer is notified only on a non-empty diff: a scan
cycle whose added, removed and changed sequences are all empty emits
nothing, and in particular a cycle whose new snapshot equals the previous
one (snapshots have unique keys by construction) emits nothing. -/
theorem claim_C9_quiescent :
    (∀ old new : Snapshot,
        (computeDiff old new).added = [] → (computeDiff old new).removed = [] →
        (computeDiff old new).changed = [] → scanEmit old new = []) ∧
    (∀ s : Snapshot, keysNodup s → scanEmit s s = []) := by
  constructor
  · intro old new h1 h2 h3
    simp [scanEmit, emitDecision, h1, h2, h3]
  · intro s hs
    simp [scanEmit, diff_self_empty s hs, emitDecision]

/-- Claim C9 witness: a one-entry snapshot rescanned identically, and an
empty diff, both emit nothing. -/
theorem claim_C9_witness :
    scanEmit [obs 80 "tcp" 100 "LISTEN"] [obs 80 "tcp" 100 "LISTEN"] = [] ∧
    scanEmit [] [] = [] :=
  ⟨claim_C9_quiescent.2 [obs 80 "tcp" 100 "LISTEN"] (by simp [keysNodup]),
    claim_C9_quiescent.1 [] [] rfl rfl rfl⟩

/-! ## Claim C10 -/

theorem snapInsert_status (s : Snapshot) (p : PortInfo)
    (hs : ∀ q ∈ s, q.status = "LISTEN") (hp : p.status = "LISTEN") :
    ∀ q ∈ snapInsert s p, q.status = "LISTEN" := by
  intro q hq
  unfold snapInsert at hq
  split at hq
  · obtain ⟨r, hr, hrq⟩ := List.mem_map.mp hq
    by_cases hk : (r.key == p.key) = true
    · rw [if_pos hk] at hrq
      rw [← hrq]
      exact hp
    · rw [if_neg hk] at hrq
      rw [← hrq]
      exact hs r hr
  · rcases List.mem_append.mp hq with hq | hq
    · exact hs q hq
    · rw [List.mem_singleton.mp hq]
      exact hp

theorem buildSnapshot_status_aux (conns : List RawConn) :
    ∀ acc : Snapshot, (∀ q ∈ acc, q.status = "LISTEN") →
      ∀ q ∈ List.foldl scanConnStep acc conns, q.status = "LISTEN" := by
  induction conns with
  | nil => intro acc hacc q hq; exact hacc q hq
  | cons c cs ih =>
    intro acc hacc
    simp only [List.foldl_cons]
    apply ih
    unfold scanConnStep
    split
    · next hcond =>
      apply snapInsert_status acc (connInfo c) hacc
      obtain ⟨hls, -⟩ : (c.status == "LISTEN") = true ∧ c.laddrPresent = true := by
        simpa using hcond
      simpa [connInfo] using hls
    · exact hacc

theorem buildSnapshot_listen (conns : List RawConn) :
    ∀ q ∈ buildSnapshot conns, q.status = "LISTEN" :=
  buildSnapshot_status_aux conns [] (by simp)

/-- Claim C10: every observation a scan stores has status LISTEN; hence the
changed sequence of the diff of two scan-built snapshots is always empty,
and is_port_listening n holds exactly when the scan-built snapshot has an
observation with port n. -/
theorem claim_C10_listen_invariant :
    (∀ (conns : List RawConn) (p : PortInfo),
        p ∈ buildSnapshot conns → p.status = "LISTEN") ∧
    (∀ connsA connsB : List RawConn,
        (computeDiff (buildSnapshot connsA) (buildSnapshot connsB)).changed = []) ∧
    (∀ (conns : List RawConn) (n : Nat),
        is_port_listening (buildSnapshot conns) n = true ↔
          ∃ p, p ∈ buildSnapshot conns ∧ p.port = n) := by
  refine ⟨fun conns p hp => buildSnapshot_listen conns p hp, ?_, ?_⟩
  · intro A B
    show List.filter _ (buildSnapshot B) = []
    apply List.filter_eq_nil_iff.mpr
    intro p hp
    cases hlk : lookupKey (buildSnapshot A) p.key with
    | none => simp [hlk]
    | some q =>
      have hq := (mem_and_key_of_lookupKey hlk).1
      have hqs : q.status = "LISTEN" := buildSnapshot_listen A q hq
      have hps : p.status = "LISTEN" := buildSnapshot_listen B p hp
      simp [hlk, hqs, hps]
  · intro conns n
    simp only [is_port_listening, decide_eq_true_eq]
    constructor
    · intro hlen
      have hne : getPortByNumber (buildSnapshot conns) n ≠ [] := by
        intro hnil
        rw [hnil] at hlen
        simp at hlen
      obtain ⟨p, hp⟩ := List.exists_mem_of_ne_nil _ hne
      simp only [getPortByNumber] at hp
      have hmf := List.mem_filter.mp hp
      refine ⟨p, hmf.1, ?_⟩
      obtain ⟨hpe, -⟩ : (p.port == n) = true ∧ (p.status == "LISTEN") = true := by
        simpa using hmf.2
      simpa using hpe
    · rintro ⟨p, hp, hport⟩
      have hst : p.status = "LISTEN" := buildSnapshot_listen conns p hp
      have hmem : p ∈ getPortByNumber (buildSnapshot conns) n := by
        simp only [getPortByNumber]
        exact List.mem_filter.mpr ⟨hp, by simp [hport, hst]⟩
      exact List.length_pos.mpr (List.ne_nil_of_mem hmem)

/-- Claim C10 witness: the invariant and the port query applied to a
concrete one-connection scan. -/
theorem claim_C10_witness :
    (connInfo sampleConn).status = "LISTEN" ∧
    is_port_listening (buildSnapshot [sampleConn]) 80 = true := by
  refine ⟨claim_C10_listen_invariant.1 [sampleConn] (connInfo sampleConn) (by decide), ?_⟩
  exact (claim_C10_listen_invariant.2.2 [sampleConn] 80).mpr
    ⟨connInfo sampleConn, by decide, rfl⟩

/-! ## Reconciliation helper lemmas (claim C5) -/

theorem find?_cons_true {α : Type} (p : α → Bool) (a : α) (l : List α)
    (h : p a = true) : (a :: l).find? p = some a := by
  simp [List.find?_cons, h]

theorem find?_cons_false {α : Type} (p : α → Bool) (a : α) (l : List α)
    (h : p a = false) : (a :: l).find? p = l.find? p := by
  simp [List.find?_cons, h]

theorem removeGenerated_map_replace (k : String) (v : SectionVal)
    (hk : isGeneratedKey k = true) :
    ∀ d : TomlDoc,
      removeGenerated (d.map (fun kv => if kv.1 == k then (k, v) else kv)) =
        removeGenerated d := by
  intro d
  induction d with
  | nil => rfl
  | cons kv d ih =>
    simp only [removeGenerated, List.map_cons] at ih ⊢
    by_cases hb : (kv.1 == k) = true
    · have hkv : kv.1 = k := by simpa using hb
      rw [if_pos hb, List.filter_cons, List.filter_cons]
      simp only [hkv, hk, Bool.not_true]
      simpa using ih
    · rw [if_neg hb, List.filter_cons, List.filter_cons]
      by_cases hg : (!(isGeneratedKey kv.1)) = true
      · rw [if_pos hg, if_pos hg, ih]
      · rw [if_neg hg, if_neg hg]
        exact ih

theorem removeGenerated_setKey (d : TomlDoc) (k : String) (v : SectionVal)
    (hk : isGeneratedKey k = true) :
    removeGenerated (setKey d k v) = removeGenerated d := by
  unfold setKey
  split
  · exact removeGenerated_map_replace k v hk d
  · simp only [removeGenerated, List.filter_append]
    simp [hk]

theorem removeGenerated_foldl :
    ∀ ps : List ProxyConfig, (∀ p ∈ ps, isGeneratedKey p.name = true) →
      ∀ acc : TomlDoc,
        removeGenerated (ps.foldl applyProxySection acc) = removeGenerated acc := by
  intro ps
  induction ps with
  | nil => intro _ acc; rfl
  | cons p ps ih =>
    intro h acc
    simp only [List.foldl_cons]
    rw [ih (fun q hq => h q (List.mem_cons_of_mem p hq)) (applyProxySection acc p)]
    exact removeGenerated_setKey acc p.name _ (h p (List.mem_cons_self p ps))

theorem removeGenerated_idem (d : TomlDoc) :
    removeGenerated (removeGenerated d) = removeGenerated d := by
  simp only [removeGenerated, List.filter_filter, Bool.and_self]

theorem lookupDoc_removeGenerated (k : String) (hk : isGeneratedKey k = false) :
    ∀ d : TomlDoc, lookupDoc (removeGenerated d) k = lookupDoc d k := by
  intro d
  induction d with
  | nil => rfl
  | cons kv d ih =>
    simp only [removeGenerated, lookupDoc] at ih ⊢
    rw [List.filter_cons]
    by_cases hb : (kv.1 == k) = true
    · have hkv : kv.1 = k := by simpa using hb
      rw [if_pos (by simp [hkv, hk])]
      rw [find?_cons_true (fun kv => kv.1 == k) kv _ hb,
        find?_cons_true (fun kv => kv.1 == k) kv _ hb]
    · have hb' : (kv.1 == k) = false := by simpa using hb
      by_cases hg : (!(isGeneratedKey kv.1)) = true
      · rw [if_pos hg]
        rw [find?_cons_false (fun kv => kv.1 == k) kv _ hb',
          find?_cons_false (fun kv => kv.1 == k) kv _ hb']
        exact ih
      · rw [if_neg hg]
        rw [find?_cons_false (fun kv => kv.1 == k) kv _ hb']
        exact ih

theorem lookupDoc_map_replace (n k : String) (v : SectionVal)
    (hnk : (n == k) = false) :
    ∀ d : TomlDoc,
      lookupDoc (d.map (fun kv => if kv.1 == n then (n, v) else kv)) k =
        lookupDoc d k := by
  intro d
  induction d with
  | nil => rfl
  | cons kv d ih =>
    simp only [lookupDoc, List.map_cons] at ih ⊢
    by_cases hb : (kv.1 == n) = true
    · have hkv : kv.1 = n := by simpa using hb
      rw [if_pos hb]
      have h1 : ((n, v).1 == k) = false := by simpa using hnk
      have h2 : (kv.1 == k) = false := by rw [hkv]; simpa using hnk
      rw [find?_cons_false (fun kv => kv.1 == k) (n, v) _ h1,
        find?_cons_false (fun kv => kv.1 == k) kv _ h2]
      exact ih
    · rw [if_neg hb]
      by_cases hc : (kv.1 == k) = true
      · rw [find?_cons_true (fun kv => kv.1 == k) kv _ hc,
          find?_cons_true (fun kv => kv.1 == k) kv _ hc]
      · have hc' : (kv.1 == k) = false := by simpa using hc
        rw [find?_cons_false (fun kv => kv.1 == k) kv _ hc',
          find?_cons_false (fun kv => kv.1 == k) kv _ hc']
        exact ih

theorem lookupDoc_append_key (n k : String) (v : SectionVal)
    (hnk : (n == k) = false) :
    ∀ d : TomlDoc, lookupDoc (d ++ [(n, v)]) k = lookupDoc d k := by
  intro d
  induction d with
  | nil =>
    simp only [List.nil_append, lookupDoc]
    have h1 : ((n, v).1 == k) = false := by simpa using hnk
    rw [find?_cons_false (fun kv => kv.1 == k) (n, v) [] h1]
  | cons kv d ih =>
    simp only [lookupDoc, List.cons_append] at ih ⊢
    by_cases hc : (kv.1 == k) = true
    · rw [find?_cons_true (fun kv => kv.1 == k) kv _ hc,
        find?_cons_true (fun kv => kv.1 == k) kv _ hc]
    · have hc' : (kv.1 == k) = false := by simpa using hc
      rw [find?_cons_false (fun kv => kv.1 == k) kv _ hc',
        find?_cons_false (fun kv => kv.1 == k) kv _ hc']
      exact ih

theorem lookupDoc_setKey (d : TomlDoc) (n k : String) (v : SectionVal)
    (hnk : (n == k) = false) :
    lookupDoc (setKey d n v) k = lookupDoc d k := by
  unfold setKey
  split
  · exact lookupDoc_map_replace n k v hnk d
  · exact lookupDoc_append_key n k v hnk d

theorem lookupDoc_foldl :
    ∀ ps : List ProxyConfig, (∀ p ∈ ps, isGeneratedKey p.name = true) →
      ∀ k : String, isGeneratedKey k = false →
        ∀ acc : TomlDoc,
          lookupDoc (ps.foldl applyProxySection acc) k = lookupDoc acc k := by
  intro ps
  induction ps with
  | nil => intro _ k _ acc; rfl
  | cons p ps ih =>
    intro h k hkgen acc
    simp only [List.foldl_cons]
    rw [ih (fun q hq => h q (List.mem_cons_of_mem p hq)) k hkgen (applyProxySection acc p)]
    apply lookupDoc_setKey
    by_cases hb : (p.name == k) = true
    · have hpk : p.name = k := by simpa using hb
      have hgen := h p (List.mem_cons_self p ps)
      rw [hpk, hkgen] at hgen
      exact absurd hgen (by simp)
    · simpa using hb

/-! ## Claim C5 -/

/-- Claim C5: for a registry whose rule names carry the generated
protocol-prefixed naming scheme (which holds for every name the code
derives from protocol tcp or udp), reconciling twice with the same registry
state yields the identical document, and every non-generated top-level key,
such as the common connection section, passes through unchanged. -/
theorem claim_C5_idempotent :
    ∀ (d : TomlDoc) (ps : List ProxyConfig),
      (∀ p ∈ ps, isGeneratedKey p.name = true) →
      updateConfigDoc (updateConfigDoc d ps) ps = updateConfigDoc d ps ∧
      (∀ k, isGeneratedKey k = false →
        lookupDoc (updateConfigDoc d ps) k = lookupDoc d k) ∧
      (∀ (protocol : String) (lp rp : Nat), protocol = "tcp" ∨ protocol = "udp" →
        isGeneratedKey (mkProxyName protocol lp rp) = true) := by
  intro d ps h
  refine ⟨?_, ?_, fun protocol lp rp hp => isGeneratedKey_mkProxyName protocol lp rp hp⟩
  · show updateConfigDoc (updateConfigDoc d ps) ps = updateConfigDoc d ps
    unfold updateConfigDoc
    rw [removeGenerated_foldl ps h (removeGenerated d), removeGenerated_idem]
  · intro k hk
    unfold updateConfigDoc
    rw [lookupDoc_foldl ps h k hk (removeGenerated d), lookupDoc_removeGenerated k hk d]

/-- Claim C5 witness: reconciling a one-rule registry twice over a document
holding a connection section, with the common key passing through. -/
theorem claim_C5_witness :
    updateConfigDoc (updateConfigDoc sampleDoc [sampleProxy ProxyStatus.stopped])
        [sampleProxy ProxyStatus.stopped] =
      updateConfigDoc sampleDoc [sampleProxy ProxyStatus.stopped] ∧
    lookupDoc (updateConfigDoc sampleDoc [sampleProxy ProxyStatus.stopped]) "common" =
      lookupDoc sampleDoc "common" := by
  have h := claim_C5_idempotent sampleDoc [sampleProxy ProxyStatus.stopped] (by decide)
  exact ⟨h.1, h.2.1 "common" (by decide)⟩

/-! ## Claim C8 -/

/-- Claim C8: process bring-up fails with the missing-connection-section
error whenever the config document loads but lacks the common section, and
that check precedes the verify subcommand: the first component of
startFrpcChecks records a verify invocation, it is false on every
common-less document and can be true only on a loaded document holding the
common section, and a non-zero verify exit yields the config-invalid error
carrying the stderr diagnostic text of the binary. -/
theorem claim_C8_verify_gate :
    (∀ (env : FrpcEnv) (pth : String) (doc : TomlDoc),
        env.frpcPath = some pth → env.configFile = ConfigFileState.loaded doc →
        hasCommon doc = false →
        startFrpcChecks env = (false, Except.error StartFrpcError.missingCommon)) ∧
    (∀ env : FrpcEnv, (startFrpcChecks env).1 = true →
        ∃ doc, env.configFile = ConfigFileState.loaded doc ∧ hasCommon doc = true) ∧
    (∀ (env : FrpcEnv) (pth : String) (doc : TomlDoc),
        env.frpcPath = some pth → env.configFile = ConfigFileState.loaded doc →
        hasCommon doc = true → env.verifyExit ≠ 0 →
        startFrpcChecks env =
          (true, Except.error (StartFrpcError.verifyFailed env.verifyStderr))) := by
  refine ⟨?_, ?_, ?_⟩
  · intro env pth doc hp hc hcommon
    unfold startFrpcChecks
    rw [hp, hc]
    simp [hcommon]
  · intro env h1
    unfold startFrpcChecks at h1
    cases hp : env.frpcPath with
    | none => rw [hp] at h1; simp at h1
    | some pth =>
      rw [hp] at h1
      cases hc : env.configFile with
      | absent => rw [hc] at h1; simp at h1
      | unreadable m => rw [hc] at h1; simp at h1
      | loaded doc =>
        rw [hc] at h1
        by_cases hcm : hasCommon doc = true
        · exact ⟨doc, rfl, hcm⟩
        · have hfalse : hasCommon doc = false := by simpa using hcm
          simp [hfalse] at h1
  · intro env pth doc hp hc hcommon hexit
    unfold startFrpcChecks
    rw [hp, hc]
    simp [hcommon, bne_iff_ne, hexit]

/-- Claim C8 witness: a document without the common section returns the
missing-section error without invoking verify, and a failing verify on a
document with the section returns the config-invalid error with its
diagnostic text. -/
theorem claim_C8_witness :
    startFrpcChecks envNoCommon = (false, Except.error StartFrpcError.missingCommon) ∧
    startFrpcChecks envVerifyFails =
      (true, Except.error (StartFrpcError.verifyFailed "invalid port")) := by
  constructor
  · exact claim_C8_verify_gate.1 envNoCommon "/usr/bin/frpc" _ rfl rfl (by decide)
  · exact claim_C8_verify_gate.2.2 envVerifyFails "/usr/bin/frpc" sampleDoc rfl rfl
      (by decide) (by decide)

end FRPLauncher
